import Mathlib

/-!
Shallow embedding of the two scripts of the DRP_project repository:
`data/process_data.py` (ETL: load, clean, persist) and
`models/train_classifier.py` (training: load, tokenize, feature extraction,
model persistence), together with proofs about the embedded functions.

Tabular data (pandas `DataFrame`) is modelled as a list of column names plus
row-major cells; a cell is a string, an integer, or a missing value (`NaN`).
Fallible library calls (missing columns, `astype` conversion failures,
duplicate-table writes) are modelled with `Except String`.

External NLTK calls (`word_tokenize`, `sent_tokenize`, `pos_tag`,
`WordNetLemmatizer.lemmatize`) are not part of the repository; the embedding
keeps them abstract as an `NlpEnv` parameter, and concrete model environments
are provided for evaluating the embedded code on concrete inputs.
-/

/-- A cell of a tabular record set: a string, an integer, or a missing value
(pandas `NaN`).  `drop_duplicates` and `dropna` in pandas both treat `NaN`
cells as equal to each other, so structural equality is the right notion. -/
inductive Cell where
  | str (s : String)
  | int (z : Int)
  | nan
  deriving DecidableEq

/-- A pandas `DataFrame`: named columns and row-major cells.  Well-formed
frames have `r.length = cols.length` for every row `r`; operations are total
and read missing positions as `NaN`, like positional pandas access. -/
structure DataFrame where
  cols : List String
  rows : List (List Cell)
  deriving DecidableEq

deriving instance DecidableEq for Except

/-- The SQLite store written by `df.to_sql` and read by `pd.read_sql_table`:
a list of named tables. -/
abbrev Store := List (String × DataFrame)

/-- Split a character list at every occurrence of `sep`; Python
`str.split(sep)` for a one-character separator.  Never returns `[]`
(Python: `"".split(";") == [""]`). -/
def splitChar (sep : Char) : List Char → List (List Char)
  | [] => [[]]
  | c :: cs =>
    let r := splitChar sep cs
    if c = sep then [] :: r
    else
      match r with
      | g :: gs => (c :: g) :: gs
      | [] => [[c]]

/-- Python `s.split(sep)` for a one-character separator. -/
def pySplit (s : String) (sep : Char) : List String :=
  (splitChar sep s.data).map String.mk

/-- Python slicing `x[:-2]`: every character except the last two (clamped,
never an error). -/
def pyDropLast2 (s : String) : String :=
  String.mk (s.data.take (s.data.length - 2))

/-- Python `s.lower()` (ASCII case folding, as used on the tokens here). -/
def pyLower (s : String) : String :=
  String.mk (s.data.map Char.toLower)

/-- Python `s.strip()`: remove leading and trailing whitespace. -/
def pyStrip (s : String) : String :=
  String.mk (((s.data.dropWhile Char.isWhitespace).reverse.dropWhile Char.isWhitespace).reverse)

/-- Index of the first column with the given name (`pandas` resolves column
labels to their first occurrence). -/
def colIndex (name : String) : List String → Option Nat
  | [] => none
  | c :: cs => if c = name then some 0 else (colIndex name cs).map (· + 1)

/-- Column access `df[name]` / `df.name`: the named column as a list of
cells, or an error when the column is absent (pandas `KeyError` /
`AttributeError`). -/
def getColumn (df : DataFrame) (name : String) : Except String (List Cell) :=
  match colIndex name df.cols with
  | some i => .ok (df.rows.map (fun r => r.getD i Cell.nan))
  | none => .error ("KeyError: " ++ name)

/-- `df.drop(name, axis=1)`: remove the named column, an error when it is
absent (pandas `KeyError`). -/
def dropColumn (df : DataFrame) (name : String) : Except String DataFrame :=
  match colIndex name df.cols with
  | some i => .ok ⟨df.cols.eraseIdx i, df.rows.map (fun r => r.eraseIdx i)⟩
  | none => .error ("KeyError: " ++ name)

/-- Keep every row not already seen, front to back. -/
def dropDupAux (seen : List (List Cell)) : List (List Cell) → List (List Cell)
  | [] => []
  | r :: rs => if r ∈ seen then dropDupAux seen rs else r :: dropDupAux (r :: seen) rs

/-- `df.drop_duplicates()`: keep the first occurrence of every distinct row,
preserving order. -/
def dropDuplicates (l : List (List Cell)) : List (List Cell) :=
  dropDupAux [] l

namespace ProcessData

/-- `load_data` of `data/process_data.py`, after `pd.read_csv` has produced
the two tables: `pd.merge(messages, categories, on='id')`, the inner join on
the shared `id` key.  For each left row in order, every right row with an
equal key yields one merged row (left columns, then the right columns
without the key).  An absent key column in either input is a `KeyError`.
(pandas would suffix overlapping non-key column names; the two raw inputs
share only the key, so renaming is not modelled.) -/
def load_data (messages categories : DataFrame) : Except String DataFrame :=
  match colIndex "id" messages.cols, colIndex "id" categories.cols with
  | some i, some j =>
    .ok ⟨messages.cols ++ categories.cols.eraseIdx j,
      messages.rows.flatMap (fun mr =>
        ((categories.rows.filter (fun cr => cr.getD j Cell.nan = mr.getD i Cell.nan)).map
          (fun cr => mr ++ cr.eraseIdx j)))⟩
  | _, _ => .error "KeyError: id"

/-- `df.categories.str.split(";", expand=True)` applied to one cell: the
split parts for a string cell, `NaN` (modelled `none`) otherwise. -/
def splitCell : Cell → Option (List String)
  | .str s => some (pySplit s ';')
  | .int _ => none
  | .nan => none

/-- Width contributed by one split cell to the expanded category frame:
a non-string cell expands to a single `NaN`. -/
def partWidth : Option (List String) → Nat
  | some ps => ps.length
  | none => 1

/-- One converted category value: `categories[column].str[-1]` followed by
`astype(np.int)`.  The last character of a string cell, as an integer; an
empty string gives `NaN` under `.str[-1]` and a non-string cell is already
`NaN`, and `astype` fails on `NaN` and on non-digit characters. -/
def lastCharInt : Cell → Except String Cell
  | .str s =>
    match s.data.getLast? with
    | some ch =>
      if ch.isDigit then .ok (.int (ch.toNat - '0'.toNat))
      else .error "ValueError: invalid literal for int"
    | none => .error "ValueError: cannot convert float NaN to integer"
  | .int _ => .error "ValueError: cannot convert float NaN to integer"
  | .nan => .error "ValueError: cannot convert float NaN to integer"

/-- One row of the expanded category frame, padded to the frame width with
`NaN` (pandas `expand=True` pads rows with fewer parts). -/
def padRow (width : Nat) : Option (List String) → List Cell
  | some ps => ps.map Cell.str ++ List.replicate (width - ps.length) Cell.nan
  | none => List.replicate width Cell.nan

/-- `clean_data` of `data/process_data.py`, step for step:
split the `categories` column on `";"` into an expanded frame; name the new
columns from the first row via `x[:-2]` (an error when there is no row, or
when the first row has a `NaN` where a name is taken — `row.apply` on a float);
convert every value to the integer given by its last character (`.str[-1]`
then `astype(np.int)`, an error on `NaN` or non-digit); drop the combined
`categories` column and concatenate the expanded columns; drop exact
duplicate rows; drop the `original` column; drop every row containing `NaN`.
The per-column conversion loop `for column in categories` is modelled
positionally, which matches pandas when the derived column names are
distinct. -/
def clean_data (df : DataFrame) : Except String DataFrame :=
  match getColumn df "categories" with
  | .error e => .error e
  | .ok catCol =>
    let splits := catCol.map splitCell
    let width := (splits.map partWidth).foldl Nat.max 0
    match splits with
    | [] => .error "IndexError: single positional indexer is out-of-bounds"
    | none :: _ => .error "TypeError: float object is not subscriptable"
    | some row0 :: _ =>
      if row0.length < width then .error "TypeError: float object is not subscriptable"
      else
        let category_colnames := row0.map pyDropLast2
        match splits.mapM (fun o => (padRow width o).mapM lastCharInt) with
        | .error e => .error e
        | .ok catRows =>
          match dropColumn df "categories" with
          | .error e => .error e
          | .ok df1 =>
            let df2 : DataFrame :=
              ⟨df1.cols ++ category_colnames, List.zipWith (fun a b => a ++ b) df1.rows catRows⟩
            let df3 : DataFrame := ⟨df2.cols, dropDuplicates df2.rows⟩
            match dropColumn df3 "original" with
            | .error e => .error e
            | .ok df4 => .ok ⟨df4.cols, df4.rows.filter (fun r => r.all (fun c => c ≠ Cell.nan))⟩

/-- `df.to_sql(name, engine)` with the default `if_exists='fail'`: a
`ValueError` when a table of that name already exists (the store is left
untouched), otherwise the new table is added. -/
def to_sql (df : DataFrame) (name : String) (store : Store) : Except String Store :=
  if store.any (fun p => p.1 = name) then
    .error ("ValueError: Table " ++ name ++ " already exists")
  else .ok (store ++ [(name, df)])

/-- `save_data` of `data/process_data.py`: write the cleaned frame to the
fixed table name `InsertTableName`. -/
def save_data (df : DataFrame) (store : Store) : Except String Store :=
  to_sql df "InsertTableName" store

/-- The state of the store after a `save_data` call: unchanged when the
write raised. -/
def save_data_run (df : DataFrame) (store : Store) : Store :=
  match save_data df store with
  | .ok s => s
  | .error _ => store

end ProcessData

namespace TrainClassifier

/-- The external NLTK interface used by `models/train_classifier.py`.
These functions live in the NLTK library, not in the repository, so the
embedding keeps them abstract; theorems either quantify over the
environment or evaluate a concrete model environment. -/
structure NlpEnv where
  sent_tokenize : String → List String
  word_tokenize : String → List String
  lemmatize : String → String
  pos_tag : List String → List (String × String)

/-- One character of the repeated group of the URL pattern
`http[s]?://(?:[a-zA-Z]|[0-9]|[$-_@.&+]|[!*\x28\x29,]|(?:%[0-9a-fA-F][0-9a-fA-F]))+`.
The `[$-_@.&+]` range runs from `$` (0x24) to `_` (0x5F) and therefore
already contains `@ . & + * ( ) ,` and `%`, so the three-character
`%XX` alternative never binds and the group is a plain character class. -/
def urlBodyChar (c : Char) : Bool :=
  ('a' ≤ c && c ≤ 'z') || ('A' ≤ c && c ≤ 'Z')
    || ('0' ≤ c && c ≤ '9')
    || ('$' ≤ c && c ≤ '_')
    || c == '!' || c == '*' || c == '(' || c == ')' || c == ','
    || c == '%'

/-- Length of the (greedy, leftmost) URL-pattern match starting exactly at
the head of `cs`, and `0` when the pattern does not match there. -/
def urlMatchLen (cs : List Char) : Nat :=
  match cs with
  | 'h' :: 't' :: 't' :: 'p' :: 's' :: ':' :: '/' :: '/' :: rest =>
    let b := (rest.takeWhile urlBodyChar).length
    if b = 0 then 0 else 8 + b
  | 'h' :: 't' :: 't' :: 'p' :: ':' :: '/' :: '/' :: rest =>
    let b := (rest.takeWhile urlBodyChar).length
    if b = 0 then 0 else 7 + b
  | _ => 0

/-- Scan for non-overlapping URL-pattern matches, left to right, resuming
after each match — the semantics of `re.findall` for this pattern.  The
second argument counts characters of the current match still to be skipped
before scanning resumes. -/
def urlFindAux : List Char → Nat → List String
  | [], _ => []
  | _ :: cs, skip + 1 => urlFindAux cs skip
  | c :: cs, 0 =>
    let n := urlMatchLen (c :: cs)
    if n = 0 then urlFindAux cs 0
    else String.mk ((c :: cs).take n) :: urlFindAux cs (n - 1)

/-- `re.findall(url_regex, text)` for the fixed URL pattern of `tokenize`. -/
def url_regex_findall (text : String) : List String :=
  urlFindAux text.data 0

/-- Python `str.replace(pat, rep)`, scanning left to right and continuing
after each replaced occurrence.  The counter holds characters of the
occurrence just replaced that are still to be consumed. -/
def replaceListAux (pat rep : List Char) : List Char → Nat → List Char
  | [], _ => []
  | _ :: cs, skip + 1 => replaceListAux pat rep cs skip
  | c :: cs, 0 =>
    if pat ≠ [] ∧ pat.isPrefixOf (c :: cs) then
      rep ++ replaceListAux pat rep cs (pat.length - 1)
    else
      c :: replaceListAux pat rep cs 0

/-- Python `str.replace(pat, rep)`: replace every non-overlapping occurrence
of `pat`. -/
def replaceList (pat rep s : List Char) : List Char :=
  replaceListAux pat rep s 0

/-- The URL-replacement prefix of `tokenize`: find all URL-pattern matches
and replace each detected string by the sentinel `"urlplaceholder"`
(`for url in detected_urls: text = text.replace(url, "urlplaceholder")`). -/
def replace_urls (text : String) : String :=
  (url_regex_findall text).foldl
    (fun t url => String.mk (replaceList url.data "urlplaceholder".data t.data)) text

/-- `tokenize` of `models/train_classifier.py`: replace URLs with the
sentinel, split into word tokens, and normalise each token with
`lemmatizer.lemmatize(tok).lower().strip()`. -/
def tokenize (env : NlpEnv) (text : String) : List String :=
  (env.word_tokenize (replace_urls text)).map
    (fun tok => pyStrip (pyLower (env.lemmatize tok)))

/-- Join a token list back into space-separated text (used to state the
idempotence round trip of the spec; not part of the source). -/
def joinTokens (ts : List String) : String :=
  String.mk (List.intercalate [' '] (ts.map String.data))

/-- The sentence loop of `StartingVerbExtractor.starting_verb`: for each
sentence, tag the tokens and look at `pos_tags[0]`; indexing an empty tag
list is an `IndexError`, modelled as `none`. -/
def starting_verb_go (env : NlpEnv) : List String → Option Bool
  | [] => some false
  | sentence :: rest =>
    match env.pos_tag (tokenize env sentence) with
    | [] => none
    | (first_word, first_tag) :: _ =>
      if first_tag == "VB" || first_tag == "VBP" || first_word == "RT" then some true
      else starting_verb_go env rest

/-- `StartingVerbExtractor.starting_verb`: split the text into sentences and
return `True` as soon as a sentence starts with a base-form or
non-3rd-person verb or with the literal `"RT"`, `False` after the loop. -/
def starting_verb (env : NlpEnv) (text : String) : Option Bool :=
  starting_verb_go env (env.sent_tokenize text)

/-- `StartingVerbExtractor.transform`: apply `starting_verb` to every text
of the input series; a raised `IndexError` propagates (`none`). -/
def transform (env : NlpEnv) (X : List String) : Option (List Bool) :=
  X.mapM (starting_verb env)

/-- `pd.read_sql_table(name, engine)`: the stored table of that name, an
error when it is absent. -/
def read_sql_table (name : String) (store : Store) : Except String DataFrame :=
  match store.find? (fun p => p.1 = name) with
  | some p => .ok p.2
  | none => .error ("ValueError: Table " ++ name ++ " not found")

/-- `load_data` of `models/train_classifier.py`: read the single table back,
take `df['message']` as the feature series `X`, `df.iloc[:, 4:]` as the
label matrix `Y` (all columns from position 4 on), and `Y.columns` as the
category names. -/
def load_data (store : Store) : Except String (List Cell × DataFrame × List String) :=
  match read_sql_table "InsertTableName" store with
  | .error e => .error e
  | .ok df =>
    match getColumn df "message" with
    | .error e => .error e
    | .ok X =>
      let Y : DataFrame := ⟨df.cols.drop 4, df.rows.map (fun r => r.drop 4)⟩
      .ok (X, Y, Y.cols)

/-- The file system seen by `save_model`: the contents of each path, with
file contents standing for the pickle byte stream. -/
def FileSystem : Type := String → Option String

/-- `open(filename, 'wb')` followed by a full write: truncate and overwrite
an existing file, create the file otherwise — never an error for an
existing destination. -/
def setFile (fs : FileSystem) (path content : String) : FileSystem :=
  fun q => if q = path then some content else fs q

/-- Read a file back. -/
def readFile (fs : FileSystem) (path : String) : Option String :=
  fs path

/-- `save_model` of `models/train_classifier.py`:
`pickle.dump(model, open(filename, 'wb'))`, with the pickle serialisation of
the opaque fitted model kept abstract as a `serialize` parameter. -/
def save_model {α : Type} (serialize : α → String) (model : α)
    (model_filepath : String) (fs : FileSystem) : FileSystem :=
  setFile fs model_filepath (serialize model)

/-- Whitespace word splitting: a concrete model of the external
word tokenizer (`nltk.tokenize.word_tokenize`), used to evaluate the
embedded code on concrete inputs. -/
def wsTokenize (s : String) : List String :=
  ((splitChar ' ' s.data).filter (fun g => !g.isEmpty)).map String.mk

/-- Concrete model NLP environment: whitespace word tokens, identity
lemmatizer, the empty text has no sentences and otherwise the text is one
sentence, and every token is tagged as a noun. -/
def mdlEnv : NlpEnv where
  sent_tokenize := fun t => if t = "" then [] else [t]
  word_tokenize := wsTokenize
  lemmatize := fun t => t
  pos_tag := fun toks => toks.map (fun t => (t, "NN"))

/-- Model environment realising the spec's account of the latent
`starting_verb` failure ("an empty-tag list for empty text causes an index
failure"): the sentence splitter hands every text on as one sentence, so the
empty text yields one sentence with zero word tokens and hence an empty tag
list. -/
def naiveEnv : NlpEnv where
  sent_tokenize := fun t => [t]
  word_tokenize := wsTokenize
  lemmatize := fun t => t
  pos_tag := fun toks => toks.map (fun t => (t, "NN"))

end TrainClassifier


open ProcessData TrainClassifier

/-! ### Specification-side definitions used to state the claims -/

/-- One encoded `label:value` pair of a category string. -/
def pairCellString (l : String) (b : Bool) : String := l ++ ":" ++ (cond b "1" "0")

/-- The 0/1 integer cell for one boolean label value. -/
def boolCell (b : Bool) : Cell := Cell.int (cond b 1 0)


/-! ### Concrete fixtures for witnesses and counterexamples -/

/-- The 36 category labels of the disaster-response dataset. -/
def labels36 : List String :=
  ["related", "request", "offer", "aid_related", "medical_help", "medical_products",
   "search_and_rescue", "security", "military", "child_alone", "water", "food",
   "shelter", "clothing", "money", "missing_people", "refugees", "death", "other_aid",
   "infrastructure_related", "transport", "buildings", "electricity", "tools",
   "hospitals", "shops", "aid_centers", "other_infrastructure", "weather_related",
   "floods", "storm", "fire", "earthquake", "cold", "other_weather", "direct_report"]

/-- Label values of the fixture row, one per category. -/
def bs36 : List Bool :=
  [true, true, false, true, false, false,
   false, false, false, false, true, true,
   false, false, false, false, false, false, false,
   false, false, false, false, false,
   false, false, false, false, true,
   true, true, false, false, false, false, false]

/-- The encoded categories cell of the fixture row: 36 `label:value` pairs
separated by `";"`, matching `labels36` and `bs36`. -/
def cat36 : String :=
  "related:1;request:1;offer:0;aid_related:1;medical_help:0;medical_products:0;search_and_rescue:0;security:0;military:0;child_alone:0;water:1;food:1;shelter:0;clothing:0;money:0;missing_people:0;refugees:0;death:0;other_aid:0;infrastructure_related:0;transport:0;buildings:0;electricity:0;tools:0;hospitals:0;shops:0;aid_centers:0;other_infrastructure:0;weather_related:1;floods:1;storm:1;fire:0;earthquake:0;cold:0;other_weather:0;direct_report:0"

/-- A merged fixture frame with one row carrying the 36 category pairs. -/
def df36 : DataFrame :=
  ⟨["id", "message", "original", "genre", "categories"],
   [[.int 7, .str "We need water and food", .str "orig text", .str "direct", .str cat36]]⟩

/-- A merged fixture with one row and the two category pairs `aid:1;water:0`. -/
def mergedSmall : DataFrame :=
  ⟨["id", "message", "original", "genre", "categories"],
   [[.int 1, .str "rain a lot", .str "orig", .str "direct", .str "aid:1;water:0"]]⟩

/-- The cleaned output of `mergedSmall`. -/
def cleanedSmall : DataFrame :=
  ⟨["id", "message", "genre", "aid", "water"],
   [[.int 1, .str "rain a lot", .str "direct", .int 1, .int 0]]⟩

/-- A merged fixture with two distinct rows sharing identifier 1 (same
identifier, different message). -/
def mergedDupId : DataFrame :=
  ⟨["id", "message", "original", "genre", "categories"],
   [[.int 1, .str "a", .str "o", .str "g", .str "rel:1"],
    [.int 1, .str "b", .str "o", .str "g", .str "rel:1"]]⟩

/-- The cleaned output of `mergedDupId`: identifier 1 appears in two rows. -/
def cleanedDupId : DataFrame :=
  ⟨["id", "message", "genre", "rel"],
   [[.int 1, .str "a", .str "g", .int 1],
    [.int 1, .str "b", .str "g", .int 1]]⟩

/-- A messages fixture in which identifier 1 appears twice. -/
def messagesDup : DataFrame := ⟨["id", "message"], [[.int 1, .str "a"], [.int 1, .str "b"]]⟩

/-- A categories fixture whose single row carries the shared identifier 1. -/
def categoriesOne : DataFrame := ⟨["id", "categories"], [[.int 1, .str "x:1"]]⟩

/-- A messages fixture with distinct identifiers 1 and 2. -/
def messagesW : DataFrame := ⟨["id", "message"], [[.int 1, .str "a"], [.int 2, .str "b"]]⟩

/-- A categories fixture with distinct identifiers 2 and 3; only 2 is
shared with `messagesW`. -/
def categoriesW : DataFrame :=
  ⟨["id", "categories"], [[.int 2, .str "y:1"], [.int 3, .str "z:0"]]⟩

/-- The inner join of `messagesW` and `categoriesW`. -/
def mergedW : DataFrame := ⟨["id", "message", "categories"], [[.int 2, .str "b", .str "y:1"]]⟩

/-- A concrete file system with an existing serialised model at
`classifier.pkl`. -/
def fsW : FileSystem := fun q => if q = "classifier.pkl" then some "old model bytes" else none

/-! ### Helper lemmas about the embedding's building blocks -/

theorem mapM_ok_of_forall {α β : Type} (f : α → Except String β) (g : α → β) :
    ∀ l : List α, (∀ a ∈ l, f a = .ok (g a)) → l.mapM f = .ok (l.map g)
  | [], _ => rfl
  | a :: l, h => by
    rw [List.mapM_cons, h a (by simp)]
    rw [mapM_ok_of_forall f g l (fun x hx => h x (by simp [hx]))]
    rfl

theorem forall₂_of_mapM_ok {α β : Type} (f : α → Except String β) :
    ∀ (l : List α) (ys : List β), l.mapM f = .ok ys →
      List.Forall₂ (fun a y => f a = .ok y) l ys := by
  intro l
  induction l with
  | nil => intro ys h; rw [List.mapM_nil] at h; cases h; exact List.Forall₂.nil
  | cons a l ih =>
    intro ys h
    rw [List.mapM_cons] at h
    cases hfa : f a with
    | error e => rw [hfa] at h; simp [Bind.bind, Except.bind] at h
    | ok b =>
      rw [hfa] at h
      cases hl : l.mapM f with
      | error e => rw [hl] at h; simp [Bind.bind, Except.bind] at h
      | ok bs =>
        rw [hl] at h
        simp [Bind.bind, Except.bind, pure, Except.pure] at h
        cases h
        exact List.Forall₂.cons hfa (ih bs hl)

theorem mapM_map_eq {α β γ : Type} (F : α → β) (f : β → Except String γ) :
    ∀ l : List α, (l.map F).mapM f = l.mapM (fun a => f (F a))
  | [] => rfl
  | a :: l => by
    rw [List.map_cons, List.mapM_cons, List.mapM_cons, mapM_map_eq F f l]

theorem mem_of_mem_dropDupAux {r : List Cell} :
    ∀ (seen l : List (List Cell)), r ∈ dropDupAux seen l → r ∈ l := by
  intro seen l
  induction l generalizing seen with
  | nil => intro h; simp [dropDupAux] at h
  | cons x l ih =>
    intro h
    rw [dropDupAux] at h
    by_cases hx : x ∈ seen
    · rw [if_pos hx] at h
      exact List.mem_cons_of_mem x (ih seen h)
    · rw [if_neg hx] at h
      rcases List.mem_cons.1 h with h1 | h2
      · exact h1 ▸ List.mem_cons_self x l
      · exact List.mem_cons_of_mem x (ih (x :: seen) h2)

theorem mem_of_mem_dropDuplicates {r : List Cell} {l : List (List Cell)}
    (h : r ∈ dropDuplicates l) : r ∈ l :=
  mem_of_mem_dropDupAux [] l h

theorem zipWith_map_same {α β γ δ : Type} (f : β → γ → δ) (g : α → β) (h : α → γ) :
    ∀ l : List α, List.zipWith f (l.map g) (l.map h) = l.map (fun x => f (g x) (h x))
  | [] => rfl
  | a :: l => by
    simp only [List.map_cons, List.zipWith_cons_cons, zipWith_map_same f g h l]

theorem mem_zipWith {α β γ : Type} {f : α → β → γ} {x : γ} :
    ∀ {as : List α} {bs : List β}, x ∈ List.zipWith f as bs →
      ∃ a ∈ as, ∃ b ∈ bs, x = f a b := by
  intro as
  induction as with
  | nil => intro bs h; simp at h
  | cons a as ih =>
    intro bs h
    cases bs with
    | nil => simp at h
    | cons b bs =>
      rw [List.zipWith_cons_cons] at h
      rcases List.mem_cons.1 h with h1 | h2
      · exact ⟨a, List.mem_cons_self a as, b, List.mem_cons_self b bs, h1⟩
      · obtain ⟨a', ha', b', hb', hx⟩ := ih h2
        exact ⟨a', List.mem_cons_of_mem a ha', b', List.mem_cons_of_mem b hb', hx⟩

theorem zipWith_const_left {α β : Type} :
    ∀ (ls : List α) (bs : List β), ls.length = bs.length →
      List.zipWith (fun a _ => a) ls bs = ls
  | [], [], _ => rfl
  | [], _ :: _, h => by simp at h
  | _ :: _, [], h => by simp at h
  | a :: ls, b :: bs, h => by
    rw [List.zipWith_cons_cons, zipWith_const_left ls bs (by simpa using h)]

theorem colIndex_lt {name : String} :
    ∀ {l : List String} {i : Nat}, colIndex name l = some i → i < l.length := by
  intro l
  induction l with
  | nil => intro i h; simp [colIndex] at h
  | cons c cs ih =>
    intro i h
    rw [colIndex] at h
    by_cases hc : c = name
    · rw [if_pos hc] at h; cases h; simp
    · rw [if_neg hc] at h
      cases hcs : colIndex name cs with
      | none => rw [hcs] at h; simp at h
      | some j =>
        rw [hcs] at h
        simp only [Option.map_some'] at h
        cases h
        simpa using Nat.succ_lt_succ (ih hcs)

theorem foldl_max_all_eq (n : Nat) :
    ∀ (l : List Nat) (a : Nat), l ≠ [] → (∀ x ∈ l, x = n) → l.foldl Nat.max a = Nat.max a n := by
  intro l
  induction l with
  | nil => intro a h _; exact absurd rfl h
  | cons x l ih =>
    intro a _ hall
    rw [List.foldl_cons, hall x (List.mem_cons_self x l)]
    cases l with
    | nil => rfl
    | cons y l =>
      rw [ih (Nat.max a n) (by simp) (fun z hz => hall z (List.mem_cons_of_mem x hz))]
      simp only [Nat.max_def]
      split <;> simp_all

theorem length_eq_five {α : Type} {r : List α} (h : r.length = 5) :
    ∃ a b c d e : α, r = [a, b, c, d, e] := by
  match r, h with
  | [a, b, c, d, e], _ => exact ⟨a, b, c, d, e, rfl⟩

/-! ### Lemmas about `clean_data` on well-formed category data -/

theorem data_pairCellString (l : String) (b : Bool) :
    (pairCellString l b).data = l.data ++ [':', cond b '1' '0'] := by
  cases b <;> simp [pairCellString, String.data_append]

theorem pyDropLast2_pair (l : String) (b : Bool) :
    pyDropLast2 (pairCellString l b) = l := by
  rw [pyDropLast2, data_pairCellString]
  rw [List.length_append]
  simp only [List.length_cons, List.length_nil]
  rw [show l.data.length + 2 - 2 = l.data.length by omega]
  rw [List.take_left]

theorem lastCharInt_pair (l : String) (b : Bool) :
    lastCharInt (Cell.str (pairCellString l b)) = .ok (boolCell b) := by
  rw [lastCharInt, data_pairCellString]
  rw [show l.data ++ [':', cond b '1' '0'] = (l.data ++ [':']) ++ [cond b '1' '0'] by simp]
  rw [List.getLast?_concat]
  cases b <;> rfl

theorem convert_pair_row :
    ∀ (ls : List String) (bs : List Bool), ls.length = bs.length →
      ((List.zipWith pairCellString ls bs).map Cell.str).mapM lastCharInt =
        .ok (bs.map boolCell)
  | [], [], _ => rfl
  | [], _ :: _, h => by simp at h
  | _ :: _, [], h => by simp at h
  | l :: ls, b :: bs, h => by
    rw [List.zipWith_cons_cons, List.map_cons, List.mapM_cons, lastCharInt_pair]
    rw [convert_pair_row ls bs (by simpa using h)]
    rfl

theorem zipWith_pair_names :
    ∀ (ls : List String) (bs : List Bool), ls.length = bs.length →
      (List.zipWith pairCellString ls bs).map pyDropLast2 = ls
  | [], [], _ => rfl
  | [], _ :: _, h => by simp at h
  | _ :: _, [], h => by simp at h
  | l :: ls, b :: bs, h => by
    rw [List.zipWith_cons_cons, List.map_cons, pyDropLast2_pair]
    rw [zipWith_pair_names ls bs (by simpa using h)]

theorem dropColumn_original (names : List String) (X : List (List Cell)) :
    dropColumn ⟨"id" :: "message" :: "original" :: "genre" :: names, X⟩ "original" =
      .ok ⟨"id" :: "message" :: "genre" :: names, X.map (fun r => r.eraseIdx 2)⟩ := by
  unfold dropColumn
  rfl

theorem clean_data_eq_of_pairs (labels : List String)
    (strOf : List Cell → String) (bsOf : List Cell → List Bool) (df : DataFrame)
    (hcols : df.cols = ["id", "message", "original", "genre", "categories"])
    (hne : df.rows ≠ [])
    (hlen : ∀ r ∈ df.rows, (bsOf r).length = labels.length)
    (hcell : ∀ r ∈ df.rows, r.getD 4 Cell.nan = Cell.str (strOf r))
    (hsplit : ∀ r ∈ df.rows, pySplit (strOf r) ';' = List.zipWith pairCellString labels (bsOf r)) :
    clean_data df = .ok ⟨"id" :: "message" :: "genre" :: labels,
      ((dropDuplicates (df.rows.map (fun r => r.eraseIdx 4 ++ (bsOf r).map boolCell))).map
        (fun r => r.eraseIdx 2)).filter (fun r => r.all (fun c => c ≠ Cell.nan))⟩ := by
  obtain ⟨r0, rest, hrw⟩ : ∃ r0 rest, df.rows = r0 :: rest := by
    cases h : df.rows with
    | nil => exact absurd h hne
    | cons a l => exact ⟨a, l, rfl⟩
  have hci : colIndex "categories" df.cols = some 4 := by rw [hcols]; rfl
  have hget : getColumn df "categories" = .ok (df.rows.map (fun r => r.getD 4 Cell.nan)) := by
    rw [getColumn, hci]
  have hsplits : (df.rows.map (fun r => r.getD 4 Cell.nan)).map splitCell =
      df.rows.map (fun r => some (List.zipWith pairCellString labels (bsOf r))) := by
    rw [List.map_map]
    apply List.map_congr_left
    intro r hr
    simp only [Function.comp]
    rw [hcell r hr, splitCell, hsplit r hr]
  have hwidths : ((df.rows.map (fun r => some (List.zipWith pairCellString labels (bsOf r)))).map partWidth)
      = df.rows.map (fun _ => labels.length) := by
    rw [List.map_map]
    apply List.map_congr_left
    intro r hr
    simp only [Function.comp, partWidth]
    rw [List.length_zipWith, hlen r hr, Nat.min_self]
  have hw : (((df.rows.map (fun r => some (List.zipWith pairCellString labels (bsOf r)))).map partWidth).foldl Nat.max 0) = labels.length := by
    rw [hwidths]
    rw [foldl_max_all_eq labels.length (df.rows.map fun _ => labels.length) 0 (by simp [hrw]) (by simp)]
    exact Nat.zero_max _
  have hlen0 : (bsOf r0).length = labels.length := hlen r0 (by rw [hrw]; exact List.mem_cons_self r0 rest)
  have hcatrows : (df.rows.map (fun r => some (List.zipWith pairCellString labels (bsOf r)))).mapM
      (fun o => (padRow labels.length o).mapM lastCharInt) =
      .ok (df.rows.map (fun r => (bsOf r).map boolCell)) := by
    rw [mapM_map_eq]
    apply mapM_ok_of_forall
    intro r hr
    have hN : (bsOf r).length = labels.length := hlen r hr
    rw [padRow, List.length_zipWith, hN, Nat.min_self, Nat.sub_self]
    rw [List.replicate_zero, List.append_nil]
    exact convert_pair_row labels (bsOf r) hN.symm
  have hdc : dropColumn df "categories" =
      .ok ⟨["id", "message", "original", "genre"], df.rows.map (fun r => r.eraseIdx 4)⟩ := by
    unfold dropColumn
    rw [hci, hcols]
    rfl
  have hnames : (List.zipWith pairCellString labels (bsOf r0)).map pyDropLast2 = labels :=
    zipWith_pair_names labels (bsOf r0) hlen0.symm
  unfold clean_data
  rw [hget]
  simp only []
  rw [hsplits, hw, hcatrows, hdc, hrw]
  rw [show List.map (fun r => some (List.zipWith pairCellString labels (bsOf r))) (r0 :: rest) =
      some (List.zipWith pairCellString labels (bsOf r0)) ::
        List.map (fun r => some (List.zipWith pairCellString labels (bsOf r))) rest from rfl]
  simp only [List.map_cons]
  rw [List.length_zipWith, hlen0, Nat.min_self, if_neg (Nat.lt_irrefl _)]
  rw [hnames]
  rw [List.zipWith_cons_cons]
  rw [zipWith_map_same (fun a b => a ++ b) (fun r => r.eraseIdx 4) (fun r => List.map boolCell (bsOf r)) rest]
  simp only [List.cons_append, List.nil_append]
  rw [dropColumn_original]

/-- C1: for every nonempty merged record set of the canonical shape whose
`categories` column is, in every row, the semicolon-separated list of
`label:value` pairs over one fixed list of (distinct) label tokens with
single-digit values 0 or 1, `clean_data` succeeds and produces exactly one
column per pair, named by the label token, after the retained
`id, message, genre` columns; every retained row carries, per label, the
integer value of its pair, so every label value lies in {0, 1}.  The
`Nodup` hypothesis reflects that the source's per-column conversion loop
resolves columns by name and is only faithful for distinct label names. -/
theorem C1_clean_data_label_expansion (labels : List String) (df : DataFrame)
    (hnd : labels.Nodup)
    (hcols : df.cols = ["id", "message", "original", "genre", "categories"])
    (hne : df.rows ≠ [])
    (hrows : ∀ r ∈ df.rows, r.length = 5 ∧ ∃ s bs, bs.length = labels.length ∧
      r.getD 4 Cell.nan = Cell.str s ∧ pySplit s ';' = List.zipWith pairCellString labels bs) :
    ∃ out, clean_data df = Except.ok out ∧
      out.cols = ["id", "message", "genre"] ++ labels ∧
      (∀ r ∈ out.rows, ∃ r₀ ∈ df.rows, ∃ bs : List Bool, bs.length = labels.length ∧
        (∃ s, r₀.getD 4 Cell.nan = Cell.str s ∧
          pySplit s ';' = List.zipWith pairCellString labels bs) ∧
        r = [r₀.getD 0 Cell.nan, r₀.getD 1 Cell.nan, r₀.getD 3 Cell.nan] ++ bs.map boolCell) ∧
      (∀ r ∈ out.rows, ∀ c ∈ r.drop 3, c = Cell.int 0 ∨ c = Cell.int 1) := by
  have hch : ∀ r : List Cell, ∃ s bs, r ∈ df.rows →
      ((bs : List Bool).length = labels.length ∧ r.getD 4 Cell.nan = Cell.str s ∧
        pySplit s ';' = List.zipWith pairCellString labels bs) := by
    intro r
    by_cases hr : r ∈ df.rows
    · obtain ⟨-, s, bs, h1, h2, h3⟩ := hrows r hr
      exact ⟨s, bs, fun _ => ⟨h1, h2, h3⟩⟩
    · exact ⟨"", [], fun h => absurd h hr⟩
  choose strOf bsOf hprop using hch
  have heq := clean_data_eq_of_pairs labels strOf bsOf df hcols hne
    (fun r hr => (hprop r hr).1) (fun r hr => (hprop r hr).2.1) (fun r hr => (hprop r hr).2.2)
  have hchar : ∀ r ∈ ((dropDuplicates (df.rows.map
        (fun r => r.eraseIdx 4 ++ (bsOf r).map boolCell))).map
          (fun r => r.eraseIdx 2)).filter (fun r => r.all (fun c => c ≠ Cell.nan)),
      ∃ r₀ ∈ df.rows, ∃ bs : List Bool, bs.length = labels.length ∧
        (∃ s, r₀.getD 4 Cell.nan = Cell.str s ∧
          pySplit s ';' = List.zipWith pairCellString labels bs) ∧
        r = [r₀.getD 0 Cell.nan, r₀.getD 1 Cell.nan, r₀.getD 3 Cell.nan] ++ bs.map boolCell := by
    intro r hr
    have hr1 := (List.mem_filter.1 hr).1
    obtain ⟨r', hr', rfl⟩ := List.mem_map.1 hr1
    have hr'' := mem_of_mem_dropDuplicates hr'
    obtain ⟨r₀, hr₀, rfl⟩ := List.mem_map.1 hr''
    obtain ⟨a, b, c, d, e, hshape⟩ := length_eq_five (hrows r₀ hr₀).1
    refine ⟨r₀, hr₀, bsOf r₀, (hprop r₀ hr₀).1,
      ⟨strOf r₀, (hprop r₀ hr₀).2.1, (hprop r₀ hr₀).2.2⟩, ?_⟩
    subst hshape
    rfl
  refine ⟨_, heq, rfl, hchar, ?_⟩
  intro r hr cc hcc
  obtain ⟨r₀, hr₀, bs, hbs, hsb, hform⟩ := hchar r hr
  rw [hform] at hcc
  simp only [List.cons_append, List.nil_append, List.drop_succ_cons, List.drop_zero] at hcc
  obtain ⟨b', hb', rfl⟩ := List.mem_map.1 hcc
  cases b'
  · exact Or.inl rfl
  · exact Or.inr rfl

/-! ### Inversion lemmas and counting lemmas -/

theorem le_foldl_max : ∀ (l : List Nat) (a : Nat), a ≤ l.foldl Nat.max a
  | [], _ => Nat.le_refl _
  | x :: l, a => Nat.le_trans (Nat.le_max_left a x) (le_foldl_max l (Nat.max a x))

theorem mem_le_foldl_max {x : Nat} :
    ∀ {l : List Nat} (a : Nat), x ∈ l → x ≤ l.foldl Nat.max a := by
  intro l
  induction l with
  | nil => intro a h; simp at h
  | cons y l ih =>
    intro a h
    rcases List.mem_cons.1 h with h1 | h2
    · subst h1
      exact Nat.le_trans (Nat.le_max_right a x) (le_foldl_max l (Nat.max a x))
    · exact ih (Nat.max a y) h2

theorem splitChar_ne_nil (sep : Char) : ∀ cs : List Char, splitChar sep cs ≠ []
  | [] => by simp [splitChar]
  | c :: cs => by
    rw [splitChar]
    by_cases h : c = sep
    · simp [h]
    · rw [if_neg h]
      cases hr : splitChar sep cs with
      | nil => simp
      | cons g gs => simp

theorem pySplit_ne_nil (s : String) (sep : Char) : pySplit s sep ≠ [] := by
  rw [pySplit]
  intro h
  exact splitChar_ne_nil sep s.data (List.map_eq_nil_iff.1 h)

theorem lastCharInt_ok_int {x y : Cell} (h : lastCharInt x = .ok y) : ∃ z, y = Cell.int z := by
  cases x with
  | str s =>
    rw [lastCharInt] at h
    split at h
    · split at h
      · cases h; exact ⟨_, rfl⟩
      · simp at h
    · simp at h
  | int z => rw [lastCharInt] at h; simp at h
  | nan => rw [lastCharInt] at h; simp at h

theorem clean_data_def (df : DataFrame) :
    clean_data df =
      match getColumn df "categories" with
      | .error e => .error e
      | .ok catCol =>
        match catCol.map splitCell with
        | [] => .error "IndexError: single positional indexer is out-of-bounds"
        | none :: _ => .error "TypeError: float object is not subscriptable"
        | some row0 :: _ =>
          if row0.length < ((catCol.map splitCell).map partWidth).foldl Nat.max 0 then
            .error "TypeError: float object is not subscriptable"
          else
            match (catCol.map splitCell).mapM
                (fun o => (padRow (((catCol.map splitCell).map partWidth).foldl Nat.max 0) o).mapM
                  lastCharInt) with
            | .error e => .error e
            | .ok catRows =>
              match dropColumn df "categories" with
              | .error e => .error e
              | .ok df1 =>
                match dropColumn ⟨df1.cols ++ row0.map pyDropLast2,
                    dropDuplicates (List.zipWith (fun a b => a ++ b) df1.rows catRows)⟩
                    "original" with
                | .error e => .error e
                | .ok df4 =>
                  .ok ⟨df4.cols, df4.rows.filter (fun r => r.all (fun c => c ≠ Cell.nan))⟩ := rfl

/-- C7 (amended): every successful `clean_data` output is free of missing
values — `dropna` is the final step, so no retained cell is `NaN`.  The
other half of the claimed invariant (one row per identifier) is refuted by
`C7_duplicate_identifier_counterexample`: `drop_duplicates` removes only
exact duplicate rows, so distinct rows sharing an identifier survive. -/
theorem C7_clean_data_no_missing_values (df out : DataFrame) (h : clean_data df = Except.ok out) :
    ∀ r ∈ out.rows, ∀ c ∈ r, c ≠ Cell.nan := by
  rw [clean_data_def] at h
  split at h
  all_goals try exact Except.noConfusion h
  split at h
  all_goals try exact Except.noConfusion h
  split at h
  all_goals try exact Except.noConfusion h
  split at h
  all_goals try exact Except.noConfusion h
  split at h
  all_goals try exact Except.noConfusion h
  split at h
  all_goals try exact Except.noConfusion h
  cases h
  intro r hr c hc
  have hall := (List.mem_filter.1 hr).2
  rw [List.all_eq_true] at hall
  simpa using hall c hc

theorem forall₂_mem_right {α β : Type} {R : α → β → Prop} {b : β} :
    ∀ {l1 : List α} {l2 : List β}, List.Forall₂ R l1 l2 → b ∈ l2 → ∃ a ∈ l1, R a b := by
  intro l1 l2 h
  induction h with
  | nil => intro hb; simp at hb
  | cons hR hF ih =>
    intro hb
    rcases List.mem_cons.1 hb with h1 | h2
    · subst h1; exact ⟨_, List.mem_cons_self _ _, hR⟩
    · obtain ⟨a, ha, hr⟩ := ih h2
      exact ⟨a, List.mem_cons_of_mem _ ha, hr⟩

theorem padRow_length (w : Nat) (o : Option (List String)) (h : partWidth o ≤ w) :
    (padRow w o).length = w := by
  cases o with
  | some ps =>
    rw [padRow, List.length_append, List.length_map, List.length_replicate]
    rw [partWidth] at h
    omega
  | none => rw [padRow, List.length_replicate]

theorem clean_data_ok_shape (df out : DataFrame)
    (hcols : df.cols = ["id", "message", "original", "genre", "categories"])
    (hlen : ∀ r ∈ df.rows, r.length = 5)
    (h : clean_data df = Except.ok out) :
    ∃ names : List String, names ≠ [] ∧
      out.cols = "id" :: "message" :: "genre" :: names ∧
      ∀ r ∈ out.rows, ∃ pre cells, pre.length = 3 ∧ cells.length = names.length ∧
        (∀ c ∈ cells, ∃ z, c = Cell.int z) ∧ r = pre ++ cells := by
  have hci : colIndex "categories" df.cols = some 4 := by rw [hcols]; rfl
  have hget : getColumn df "categories" = .ok (df.rows.map (fun r => r.getD 4 Cell.nan)) := by
    rw [getColumn, hci]
  rw [clean_data_def] at h
  rw [hget] at h
  split at h
  all_goals try exact Except.noConfusion h
  rename_i catCol heqCat
  cases heqCat
  split at h
  all_goals try exact Except.noConfusion h
  rename_i row0 tail heq2
  split at h
  all_goals try exact Except.noConfusion h
  rename_i hlt
  split at h
  all_goals try exact Except.noConfusion h
  rename_i catRows heq3
  have hdc : dropColumn df "categories" =
      .ok ⟨["id", "message", "original", "genre"], df.rows.map (fun r => r.eraseIdx 4)⟩ := by
    unfold dropColumn
    rw [hci, hcols]
    rfl
  rw [hdc] at h
  simp only [] at h
  simp only [List.cons_append, List.nil_append] at h
  rw [dropColumn_original] at h
  simp only [] at h
  cases h
  have hrow0ne : row0 ≠ [] := by
    cases hcc : df.rows with
    | nil => rw [hcc] at heq2; simp at heq2
    | cons r0 rs =>
      rw [hcc, List.map_cons, List.map_cons] at heq2
      injection heq2 with h1 h2
      cases hcell : r0.getD 4 Cell.nan with
      | str s =>
        rw [hcell, splitCell] at h1
        injection h1 with h1
        rw [← h1]
        exact pySplit_ne_nil s ';'
      | int z => rw [hcell, splitCell] at h1; exact Option.noConfusion h1
      | nan => rw [hcell, splitCell] at h1; exact Option.noConfusion h1
  have hW : List.foldl Nat.max 0
      (List.map partWidth (List.map splitCell (List.map (fun r => r.getD 4 Cell.nan) df.rows))) =
      row0.length := by
    have le1 : row0.length ≤ List.foldl Nat.max 0
        (List.map partWidth (List.map splitCell (List.map (fun r => r.getD 4 Cell.nan) df.rows))) := by
      apply mem_le_foldl_max
      rw [heq2, List.map_cons]
      exact List.mem_cons_self _ _
    have le2 := Nat.not_lt.1 hlt
    omega
  refine ⟨row0.map pyDropLast2, by simp [hrow0ne], rfl, ?_⟩
  intro r hr
  have hr1 := (List.mem_filter.1 hr).1
  obtain ⟨r', hr', rfl⟩ := List.mem_map.1 hr1
  have hr'' := mem_of_mem_dropDuplicates hr'
  obtain ⟨a, ha, b, hb, rfl⟩ := mem_zipWith hr''
  obtain ⟨r₀, hr₀, rfl⟩ := List.mem_map.1 ha
  obtain ⟨x0, x1, x2, x3, x4, hshape⟩ := length_eq_five (hlen r₀ hr₀)
  subst hshape
  have hF := forall₂_of_mapM_ok _ _ _ heq3
  obtain ⟨o, ho, hob⟩ := forall₂_mem_right hF hb
  have hblen : b.length = row0.length := by
    have hlen1 := (forall₂_of_mapM_ok _ _ _ hob).length_eq
    have hpw : partWidth o ≤ List.foldl Nat.max 0
        (List.map partWidth (List.map splitCell (List.map (fun r => r.getD 4 Cell.nan) df.rows))) := by
      apply mem_le_foldl_max
      exact List.mem_map_of_mem partWidth ho
    rw [padRow_length _ _ hpw] at hlen1
    omega
  refine ⟨[x0, x1, x3], b, rfl, ?_, ?_, rfl⟩
  · rw [hblen, List.length_map]
  · intro c hc
    obtain ⟨x, hx, hlc⟩ := forall₂_mem_right (forall₂_of_mapM_ok _ _ _ hob) hc
    exact lastCharInt_ok_int hlc

/-- C3 (amended): `clean_data` is not idempotent on its own output — it is
not even defined there.  For every canonically shaped merged frame, the
cleaner's own output lacks a usable `categories` column (the column was
dropped, and any label column that happens to be named `categories` holds
integers, not category strings) and lacks the `original` column, so
re-running `clean_data` always fails with an error instead of returning the
input unchanged. -/
theorem C3_clean_data_rerun_errors (df out : DataFrame)
    (hcols : df.cols = ["id", "message", "original", "genre", "categories"])
    (hlen : ∀ r ∈ df.rows, r.length = 5)
    (h : clean_data df = Except.ok out) :
    ∃ e, clean_data out = Except.error e := by
  obtain ⟨names, hnn, hcols', hrows⟩ := clean_data_ok_shape df out hcols hlen h
  rw [clean_data_def]
  cases hfind : colIndex "categories" names with
  | none =>
    have hnone : colIndex "categories" out.cols = none := by
      rw [hcols']
      simp [colIndex, hfind]
    have hge : getColumn out "categories" = .error ("KeyError: " ++ "categories") := by
      rw [getColumn, hnone]
    rw [hge]
    exact ⟨_, rfl⟩
  | some k =>
    have hsome : colIndex "categories" out.cols = some (k + 3) := by
      rw [hcols']
      simp [colIndex, hfind]
    have hgo : getColumn out "categories" =
        .ok (out.rows.map (fun r => r.getD (k + 3) Cell.nan)) := by
      rw [getColumn, hsome]
    rw [hgo]
    cases hrr : out.rows with
    | nil => exact ⟨_, rfl⟩
    | cons r rest =>
      obtain ⟨pre, cells, hpre, hclen, hint, hform⟩ :=
        hrows r (by rw [hrr]; exact List.mem_cons_self _ _)
      have hk : k < names.length := colIndex_lt hfind
      have hcell : r.getD (k + 3) Cell.nan = cells.getD k Cell.nan := by
        rw [hform, List.getD_append_right _ _ _ _ (by omega), hpre, Nat.add_sub_cancel]
      obtain ⟨z, hz⟩ : ∃ z, cells.getD k Cell.nan = Cell.int z := by
        apply hint
        rw [List.getD_eq_getElem cells Cell.nan (by omega : k < cells.length)]
        exact List.getElem_mem _
      simp only [List.map_cons]
      rw [hcell, hz]
      exact ⟨_, rfl⟩

theorem filter_length_of_const {α : Type} (p : α → Bool) (c : Bool) :
    ∀ xs : List α, (∀ x ∈ xs, p x = c) → (xs.filter p).length = if c then xs.length else 0 := by
  intro xs
  induction xs with
  | nil => intro _; cases c <;> simp
  | cons x t ih =>
    intro hall
    have hx := hall x (List.mem_cons_self x t)
    have iht := ih (fun y hy => hall y (List.mem_cons_of_mem x hy))
    cases c with
    | true => simp [List.filter_cons, hx, iht]
    | false => simp [List.filter_cons, hx, iht]

theorem filter_key_count_nodup (key : List Cell → Cell) (k : Cell) :
    ∀ l : List (List Cell), (l.map key).Nodup →
      (l.filter (fun r => key r = k)).length = if k ∈ l.map key then 1 else 0 := by
  intro l
  induction l with
  | nil => intro _; simp
  | cons r t ih =>
    intro hnd
    rw [List.map_cons, List.nodup_cons] at hnd
    rw [List.filter_cons]
    by_cases hr : key r = k
    · have hnot : k ∉ t.map key := by rw [← hr]; exact hnd.1
      rw [if_pos (by simp [hr] : decide (key r = k) = true)]
      rw [List.length_cons, ih hnd.2]
      simp [hr, hnot]
    · rw [if_neg (by simp [hr] : ¬ decide (key r = k) = true)]
      rw [ih hnd.2]
      have hiff : (k ∈ (r :: t).map key) ↔ (k ∈ t.map key) := by
        rw [List.map_cons, List.mem_cons]
        constructor
        · rintro (h1 | h2)
          · exact absurd h1.symm hr
          · exact h2
        · exact Or.inr
      by_cases hk : k ∈ t.map key
      · rw [if_pos hk, if_pos (hiff.2 hk)]
      · rw [if_neg hk, if_neg (fun hc => hk (hiff.1 hc))]

theorem merge_rows_key_count (i j : Nat) (k : Cell) (Rrows : List (List Cell))
    (hndR : (Rrows.map (fun r => r.getD j Cell.nan)).Nodup) :
    ∀ Lrows : List (List Cell),
      (∀ r ∈ Lrows, i < r.length) →
      (Lrows.map (fun r => r.getD i Cell.nan)).Nodup →
      ((Lrows.flatMap (fun mr =>
          (Rrows.filter (fun cr => cr.getD j Cell.nan = mr.getD i Cell.nan)).map
            (fun cr => mr ++ cr.eraseIdx j))).filter
        (fun m => m.getD i Cell.nan = k)).length =
      if k ∈ Lrows.map (fun r => r.getD i Cell.nan) ∧
          k ∈ Rrows.map (fun r => r.getD j Cell.nan)
      then 1 else 0 := by
  intro Lrows
  induction Lrows with
  | nil => intro _ _; simp
  | cons mr t ih =>
    intro hlen hnd
    rw [List.map_cons, List.nodup_cons] at hnd
    rw [List.flatMap_cons, List.filter_append, List.length_append]
    have hmrlen : i < mr.length := hlen mr (List.mem_cons_self mr t)
    have hblock : (((Rrows.filter (fun cr => cr.getD j Cell.nan = mr.getD i Cell.nan)).map
        (fun cr => mr ++ cr.eraseIdx j)).filter (fun m => m.getD i Cell.nan = k)).length =
        if mr.getD i Cell.nan = k
        then (if mr.getD i Cell.nan ∈ Rrows.map (fun r => r.getD j Cell.nan) then 1 else 0)
        else 0 := by
      rw [List.filter_map, List.length_map]
      have hconst : ∀ cr ∈ Rrows.filter (fun cr => cr.getD j Cell.nan = mr.getD i Cell.nan),
          ((fun m => decide (m.getD i Cell.nan = k)) ∘ (fun cr => mr ++ cr.eraseIdx j)) cr =
            decide (mr.getD i Cell.nan = k) := by
        intro cr _
        simp only [Function.comp]
        rw [List.getD_append _ _ _ _ hmrlen]
      rw [filter_length_of_const _ (decide (mr.getD i Cell.nan = k)) _ hconst]
      by_cases hmr : mr.getD i Cell.nan = k
      · rw [if_pos (decide_eq_true hmr), if_pos hmr]
        exact filter_key_count_nodup _ _ Rrows hndR
      · rw [if_neg (fun hc => hmr (of_decide_eq_true hc)), if_neg hmr]
    rw [hblock, ih (fun r hr => hlen r (List.mem_cons_of_mem mr hr)) hnd.2]
    by_cases hmr : mr.getD i Cell.nan = k
    · have hknot : k ∉ t.map (fun r => r.getD i Cell.nan) := hmr ▸ hnd.1
      rw [if_pos hmr, hmr]
      rw [if_neg (show ¬(k ∈ t.map (fun r => r.getD i Cell.nan) ∧
          k ∈ Rrows.map (fun r => r.getD j Cell.nan)) from fun hab => hknot hab.1)]
      rw [Nat.add_zero, List.map_cons, hmr]
      have hhead : k ∈ k :: t.map (fun r => r.getD i Cell.nan) := List.mem_cons_self _ _
      by_cases hB : k ∈ Rrows.map (fun r => r.getD j Cell.nan)
      · rw [if_pos hB, if_pos ⟨hhead, hB⟩]
      · rw [if_neg hB, if_neg (fun hc => hB hc.2)]
    · rw [if_neg hmr, Nat.zero_add, List.map_cons]
      have hiff : (k ∈ mr.getD i Cell.nan :: t.map (fun r => r.getD i Cell.nan)) ↔
          k ∈ t.map (fun r => r.getD i Cell.nan) := by
        rw [List.mem_cons]
        exact ⟨fun h => h.resolve_left (fun he => hmr he.symm), Or.inr⟩
      by_cases hA : k ∈ t.map (fun r => r.getD i Cell.nan)
      · by_cases hB : k ∈ Rrows.map (fun r => r.getD j Cell.nan)
        · rw [if_pos ⟨hA, hB⟩, if_pos ⟨hiff.2 hA, hB⟩]
        · rw [if_neg (fun hc => hB hc.2), if_neg (fun hc => hB hc.2)]
      · rw [if_neg (fun hc => hA hc.1), if_neg (fun hc => hA (hiff.1 hc.1))]

/-- C6 (amended): `load_data` of the ingestion script is an exact inner
join when the join key is unique within each input: for every key value
`k`, the merged set has exactly one row with key `k` when `k` occurs in
both inputs, and none otherwise (so rows whose key is absent from the
other input are excluded, and every shared-key row yields exactly one
merged row).  Without the uniqueness hypotheses the claim fails —
`pd.merge` produces one row per matching pair
(`C6_merge_duplicate_keys_counterexample`). -/
theorem C6_merge_inner_join_unique_keys (L R M : DataFrame) (i j : Nat)
    (hiL : colIndex "id" L.cols = some i) (hjR : colIndex "id" R.cols = some j)
    (hlenL : ∀ r ∈ L.rows, r.length = L.cols.length)
    (hndL : (L.rows.map (fun r => r.getD i Cell.nan)).Nodup)
    (hndR : (R.rows.map (fun r => r.getD j Cell.nan)).Nodup)
    (hM : ProcessData.load_data L R = Except.ok M) :
    ∀ k : Cell, ((M.rows.filter (fun m => m.getD i Cell.nan = k)).length) =
      if k ∈ L.rows.map (fun r => r.getD i Cell.nan) ∧
          k ∈ R.rows.map (fun r => r.getD j Cell.nan) then 1 else 0 := by
  intro k
  unfold ProcessData.load_data at hM
  rw [hiL, hjR] at hM
  have hM' : (Except.ok ⟨L.cols ++ R.cols.eraseIdx j,
      L.rows.flatMap (fun mr =>
        ((R.rows.filter (fun cr => cr.getD j Cell.nan = mr.getD i Cell.nan)).map
          (fun cr => mr ++ cr.eraseIdx j)))⟩ : Except String DataFrame) = Except.ok M := hM
  cases hM'
  exact merge_rows_key_count i j k R.rows hndR L.rows
    (fun r hr => (hlenL r hr) ▸ colIndex_lt hiL) hndL

/-! ### Claim theorems: witnesses, counterexamples and remaining claims -/

set_option maxRecDepth 4000 in
/-- C1 witness: the general theorem applied to the 36-pair fixture `df36`:
all hypotheses hold there, there are exactly 36 labels, and `clean_data`
yields the 36 label columns. -/
theorem C1_clean_data_label_expansion_witness :
    (labels36.Nodup ∧ labels36.length = 36 ∧
      df36.cols = ["id", "message", "original", "genre", "categories"] ∧ df36.rows ≠ []) ∧
    (∃ out, clean_data df36 = Except.ok out ∧
      out.cols = ["id", "message", "genre"] ++ labels36 ∧
      (∀ r ∈ out.rows, ∃ r₀ ∈ df36.rows, ∃ bs : List Bool, bs.length = labels36.length ∧
        (∃ s, r₀.getD 4 Cell.nan = Cell.str s ∧
          pySplit s ';' = List.zipWith pairCellString labels36 bs) ∧
        r = [r₀.getD 0 Cell.nan, r₀.getD 1 Cell.nan, r₀.getD 3 Cell.nan] ++ bs.map boolCell) ∧
      (∀ r ∈ out.rows, ∀ c ∈ r.drop 3, c = Cell.int 0 ∨ c = Cell.int 1)) := by
  have hrows : ∀ r ∈ df36.rows, r.length = 5 ∧ ∃ s bs, bs.length = labels36.length ∧
      r.getD 4 Cell.nan = Cell.str s ∧ pySplit s ';' = List.zipWith pairCellString labels36 bs := by
    intro r hr
    have hone : r = [.int 7, .str "We need water and food", .str "orig text", .str "direct",
        .str cat36] := by
      simpa [df36] using hr
    subst hone
    exact ⟨by decide, cat36, bs36, by decide, by decide, by decide⟩
  exact ⟨⟨by decide, by decide, rfl, by decide⟩,
    C1_clean_data_label_expansion labels36 df36 (by decide) rfl (by decide) hrows⟩

/-- C2: the training loader drops the first label column.  The cleaned
table has three non-label columns (`id`, `message`, `genre`), but
`load_data` of `models/train_classifier.py` takes `df.iloc[:, 4:]` as the
label matrix, so on a cleaned table with label columns `aid, water` it
returns only `["water"]` as the label matrix and category names — not
`["aid", "water"]` as the spec requires.  The whole failing run is
evaluated: clean, persist, reload. -/
theorem C2_training_loader_drops_first_label :
    clean_data mergedSmall = Except.ok cleanedSmall ∧
    ProcessData.save_data cleanedSmall [] = Except.ok [("InsertTableName", cleanedSmall)] ∧
    TrainClassifier.load_data [("InsertTableName", cleanedSmall)] =
      Except.ok ([Cell.str "rain a lot"],
        (⟨["water"], [[Cell.int 0]]⟩ : DataFrame), ["water"]) ∧
    (["water"] : List String) ≠ ["aid", "water"] :=
  ⟨by decide, by decide, by decide, by decide⟩

/-- C3 counterexample: `clean_data` applied to its own output does not
succeed and return it unchanged — on the output `cleanedSmall` of a
one-row merged frame the second run errors (no `categories` column). -/
theorem C3_clean_data_not_idempotent_counterexample :
    clean_data mergedSmall = Except.ok cleanedSmall ∧
    clean_data cleanedSmall ≠ Except.ok cleanedSmall :=
  ⟨by decide, by decide⟩

/-- C3 witness: the amended theorem applied to `mergedSmall`, whose
cleaned output makes a second `clean_data` run fail. -/
theorem C3_clean_data_rerun_errors_witness :
    (mergedSmall.cols = ["id", "message", "original", "genre", "categories"] ∧
      (∀ r ∈ mergedSmall.rows, r.length = 5) ∧
      clean_data mergedSmall = Except.ok cleanedSmall) ∧
    (∃ e, clean_data cleanedSmall = Except.error e) :=
  ⟨⟨rfl, by decide, by decide⟩,
    C3_clean_data_rerun_errors mergedSmall cleanedSmall rfl (by decide) (by decide)⟩

/-- C4: when the destination store already holds a table named
`InsertTableName`, `save_data` fails with the duplicate-table
`ValueError` of `to_sql(if_exists='fail')`, and the store after the failed
call is unchanged — nothing is appended or overwritten. -/
theorem C4_save_data_duplicate_table_fails (df t : DataFrame) (store : Store)
    (h : ("InsertTableName", t) ∈ store) :
    (∃ e, ProcessData.save_data df store = Except.error e) ∧
    ProcessData.save_data_run df store = store := by
  have hc : store.any (fun p => p.1 = "InsertTableName") = true := by
    rw [List.any_eq_true]
    exact ⟨("InsertTableName", t), h, by simp⟩
  have herr : ProcessData.save_data df store =
      Except.error ("ValueError: Table " ++ "InsertTableName" ++ " already exists") := by
    unfold ProcessData.save_data ProcessData.to_sql
    rw [if_pos hc]
  refine ⟨⟨_, herr⟩, ?_⟩
  unfold ProcessData.save_data_run
  rw [herr]

/-- C4 witness: a store that already holds `InsertTableName`; the failed
write leaves it unchanged. -/
theorem C4_save_data_duplicate_table_fails_witness :
    ("InsertTableName", cleanedSmall) ∈ ([("InsertTableName", cleanedSmall)] : Store) ∧
    ((∃ e, ProcessData.save_data cleanedDupId [("InsertTableName", cleanedSmall)] =
        Except.error e) ∧
      ProcessData.save_data_run cleanedDupId [("InsertTableName", cleanedSmall)] =
        [("InsertTableName", cleanedSmall)]) :=
  ⟨by decide,
    C4_save_data_duplicate_table_fails cleanedDupId cleanedSmall _ (by decide)⟩

/-- C5: the starting-verb extractor's `transform` does not return a boolean
for every text — `starting_verb` indexes `pos_tags[0]` without a guard, so
a sentence with zero word tokens raises an `IndexError` (modelled `none`).
Under `naiveEnv`, which realises the spec's account of the failure (the
sentence splitter hands the empty text on as one empty sentence, whose
token and tag lists are empty), `transform` on `[""]` raises instead of
returning `false`; under `mdlEnv` (no sentences for the empty text, as
NLTK behaves) the same call returns `false`, showing the outcome hangs on
the unguarded index, exactly the latent bug the spec describes. -/
theorem C5_starting_verb_index_error :
    TrainClassifier.transform naiveEnv [""] = none ∧
    TrainClassifier.transform mdlEnv [""] = some [false] :=
  ⟨by decide, by decide⟩

/-- C6 counterexample: with a duplicated key on the left side, the single
shared-key right row yields two merged rows, not exactly one — `pd.merge`
produces one row per matching pair, so "every shared-key row yields exactly
one merged row" fails without key uniqueness. -/
theorem C6_merge_duplicate_keys_counterexample :
    ProcessData.load_data messagesDup categoriesOne =
      Except.ok ⟨["id", "message", "categories"],
        [[Cell.int 1, Cell.str "a", Cell.str "x:1"],
         [Cell.int 1, Cell.str "b", Cell.str "x:1"]]⟩ ∧
    (([[Cell.int 1, Cell.str "a", Cell.str "x:1"],
       [Cell.int 1, Cell.str "b", Cell.str "x:1"]].filter
        (fun m => m.getD 0 Cell.nan = Cell.int 1)).length) ≠ 1 :=
  ⟨by decide, by decide⟩

/-- C6 witness: the amended theorem on fixtures with unique keys — the
shared key 2 yields exactly one merged row, and the unshared key 1 yields
none. -/
theorem C6_merge_inner_join_unique_keys_witness :
    (colIndex "id" messagesW.cols = some 0 ∧ colIndex "id" categoriesW.cols = some 0 ∧
      (∀ r ∈ messagesW.rows, r.length = messagesW.cols.length) ∧
      (messagesW.rows.map (fun r => r.getD 0 Cell.nan)).Nodup ∧
      (categoriesW.rows.map (fun r => r.getD 0 Cell.nan)).Nodup ∧
      ProcessData.load_data messagesW categoriesW = Except.ok mergedW) ∧
    (mergedW.rows.filter (fun m => m.getD 0 Cell.nan = Cell.int 2)).length = 1 ∧
    (mergedW.rows.filter (fun m => m.getD 0 Cell.nan = Cell.int 1)).length = 0 := by
  refine ⟨⟨rfl, rfl, by decide, by decide, by decide, by decide⟩, ?_, ?_⟩
  · have h := C6_merge_inner_join_unique_keys messagesW categoriesW mergedW 0 0
      rfl rfl (by decide) (by decide) (by decide) (by decide) (Cell.int 2)
    rw [if_pos (by decide)] at h
    exact h
  · have h := C6_merge_inner_join_unique_keys messagesW categoriesW mergedW 0 0
      rfl rfl (by decide) (by decide) (by decide) (by decide) (Cell.int 1)
    rw [if_neg (by decide)] at h
    exact h

/-- C7 counterexample: the cleaned output of `mergedDupId` keeps two rows
with identifier 1 — distinct rows sharing an identifier are not
deduplicated, refuting "each identifier appears in at most one row". -/
theorem C7_duplicate_identifier_counterexample :
    clean_data mergedDupId = Except.ok cleanedDupId ∧
    cleanedDupId.rows.map (fun r => r.getD 0 Cell.nan) = [Cell.int 1, Cell.int 1] ∧
    cleanedDupId.rows.length = 2 :=
  ⟨by decide, by decide, by decide⟩

/-- C7 witness: the amended no-missing-values theorem applied to the
cleaned output of `mergedSmall`. -/
theorem C7_clean_data_no_missing_values_witness :
    clean_data mergedSmall = Except.ok cleanedSmall ∧
    (∀ r ∈ cleanedSmall.rows, ∀ c ∈ r, c ≠ Cell.nan) :=
  ⟨by decide, C7_clean_data_no_missing_values mergedSmall cleanedSmall (by decide)⟩

/-- C8 counterexample: `tokenize` is not idempotent.  The URL pattern is
case-sensitive while tokens are lowercased, so one pass turns the text
`"HTTP://A"` (no match for the lowercase pattern) into the token
`"http://a"`; re-tokenizing the joined output then matches the URL pattern
and substitutes the sentinel, altering the token sequence. -/
theorem C8_tokenize_not_idempotent_counterexample :
    tokenize mdlEnv "HTTP://A" = ["http://a"] ∧
    tokenize mdlEnv (joinTokens (tokenize mdlEnv "HTTP://A")) = ["urlplaceholder"] ∧
    tokenize mdlEnv (joinTokens (tokenize mdlEnv "HTTP://A")) ≠ tokenize mdlEnv "HTTP://A" :=
  ⟨by decide, by decide, by decide⟩

/-- C8 (amended): `tokenize` is idempotent exactly when the round trip is
stable underneath it: if re-cleaning the joined tokens introduces no new
URL match, the word tokenizer maps the joined text back to the same
tokens, and the per-token normalisation (`lemmatize`, `lower`, `strip`) is
the identity on the already-clean tokens, then tokenizing the joined
output returns the same ordered token sequence.  The unconditional claim
fails: see `C8_tokenize_not_idempotent_counterexample`. -/
theorem C8_tokenize_idempotent_conditional (env : NlpEnv) (text : String)
    (h1 : replace_urls (joinTokens (tokenize env text)) = joinTokens (tokenize env text))
    (h2 : env.word_tokenize (joinTokens (tokenize env text)) = tokenize env text)
    (h3 : ∀ t ∈ tokenize env text, pyStrip (pyLower (env.lemmatize t)) = t) :
    tokenize env (joinTokens (tokenize env text)) = tokenize env text := by
  have hdef : tokenize env (joinTokens (tokenize env text)) =
      (env.word_tokenize (replace_urls (joinTokens (tokenize env text)))).map
        (fun tok => pyStrip (pyLower (env.lemmatize tok))) := rfl
  rw [hdef, h1, h2]
  have h4 := List.map_congr_left h3
  simpa using h4

/-- C8 witness: the conditional idempotence theorem on a URL-free text
whose tokens are already clean. -/
theorem C8_tokenize_idempotent_conditional_witness :
    (replace_urls (joinTokens (tokenize mdlEnv "Flood in the city")) =
        joinTokens (tokenize mdlEnv "Flood in the city") ∧
      mdlEnv.word_tokenize (joinTokens (tokenize mdlEnv "Flood in the city")) =
        tokenize mdlEnv "Flood in the city" ∧
      (∀ t ∈ tokenize mdlEnv "Flood in the city",
        pyStrip (pyLower (mdlEnv.lemmatize t)) = t)) ∧
    tokenize mdlEnv (joinTokens (tokenize mdlEnv "Flood in the city")) =
      tokenize mdlEnv "Flood in the city" :=
  ⟨⟨by decide, by decide, by decide⟩,
    C8_tokenize_idempotent_conditional mdlEnv "Flood in the city"
      (by decide) (by decide) (by decide)⟩

/-- C9 counterexample: when one detected URL is a substring of another,
the sequential `str.replace` calls clobber the longer match and the token
sequence retains a raw URL-pattern match.  For the text
`"http://c http://bhttp://c"`, `re.findall` detects `http://c` and
`http://bhttp://c`; replacing every occurrence of the first mangles the
second into `http://burlplaceholder`, which still matches the URL pattern
— so the output token sequence contains a raw URL substring, refuting the
universal claim. -/
theorem C9_raw_url_survives_counterexample :
    url_regex_findall "http://c http://bhttp://c" ≠ [] ∧
    tokenize mdlEnv "http://c http://bhttp://c" =
      ["urlplaceholder", "http://burlplaceholder"] ∧
    url_regex_findall (joinTokens (tokenize mdlEnv "http://c http://bhttp://c")) ≠ [] :=
  ⟨by decide, by decide, by decide⟩

/-- C9 (amended): `tokenize` is deterministic — equal input texts yield
equal ordered token sequences (the embedded function is pure, as is the
source, which holds no mutable state and uses no randomness) — and on the
spec's example text containing the single, non-overlapping URL
`http://example.com/path` the token sequence carries the sentinel
`urlplaceholder` in the URL's place and retains no URL-pattern match.
For texts whose detected URLs overlap as substrings of one another, raw
URL fragments can survive: see `C9_raw_url_survives_counterexample`. -/
theorem C9_tokenize_deterministic_url_example (env : NlpEnv) (t s : String) (h : t = s) :
    tokenize env t = tokenize env s ∧
    tokenize mdlEnv "please visit http://example.com/path today" =
      ["please", "visit", "urlplaceholder", "today"] ∧
    "urlplaceholder" ∈ tokenize mdlEnv "please visit http://example.com/path today" ∧
    url_regex_findall
      (joinTokens (tokenize mdlEnv "please visit http://example.com/path today")) = [] :=
  ⟨by rw [h], by decide, by decide, by decide⟩

/-- C9 witness: the determinism-and-example theorem applied at a concrete
pair of equal texts. -/
theorem C9_tokenize_deterministic_url_example_witness :
    ("water needed" : String) = "water needed" ∧
    (tokenize mdlEnv "water needed" = tokenize mdlEnv "water needed" ∧
      tokenize mdlEnv "please visit http://example.com/path today" =
        ["please", "visit", "urlplaceholder", "today"] ∧
      "urlplaceholder" ∈ tokenize mdlEnv "please visit http://example.com/path today" ∧
      url_regex_findall
        (joinTokens (tokenize mdlEnv "please visit http://example.com/path today")) = []) :=
  ⟨rfl, C9_tokenize_deterministic_url_example mdlEnv "water needed" "water needed" rfl⟩

/-- C10: unlike the ingestion persister, `save_model` never fails on an
existing destination — `pickle.dump(model, open(filename, 'wb'))` opens
the file in truncating write mode, so for every path, including one whose
file already exists, it silently overwrites the destination with the new
serialised model and leaves every other path unchanged. -/
theorem C10_save_model_overwrites {α : Type} (serialize : α → String) (model : α)
    (path : String) (fs : FileSystem) (old : String)
    (hexists : readFile fs path = some old) :
    readFile (TrainClassifier.save_model serialize model path fs) path =
      some (serialize model) ∧
    ∀ q, q ≠ path →
      readFile (TrainClassifier.save_model serialize model path fs) q = readFile fs q := by
  constructor
  · show (if path = path then some (serialize model) else fs path) = some (serialize model)
    rw [if_pos rfl]
  · intro q hq
    show (if q = path then some (serialize model) else fs q) = fs q
    rw [if_neg hq]

/-- C10 witness: overwriting the existing `classifier.pkl` of `fsW`. -/
theorem C10_save_model_overwrites_witness :
    readFile fsW "classifier.pkl" = some "old model bytes" ∧
    (readFile (TrainClassifier.save_model (fun m => m) "new model bytes"
        "classifier.pkl" fsW) "classifier.pkl" = some "new model bytes" ∧
      ∀ q, q ≠ "classifier.pkl" →
        readFile (TrainClassifier.save_model (fun m => m) "new model bytes"
          "classifier.pkl" fsW) q = readFile fsW q) :=
  ⟨rfl, C10_save_model_overwrites (fun m => m) "new model bytes" "classifier.pkl" fsW
    "old model bytes" rfl⟩
